import Mathlib

/-!
Verification of the goingnats NATS client (`goingnats.py`) against its
natural-language specification.

Byte strings are modelled as `List Nat`, one entry per byte.  The frame
splitter (`class Messages`), the connection loop (`Client._thread`), and the
facade operations (`Client.get`, `Client.request`, the sid counter in
`Client.subscribe` / `Client.request`) are embedded as executable Lean
functions below.  Tactile I/O (sockets, threads, the queue primitives) is
replaced by explicit state passing: queue contents are lists, and the
arrival of data during a blocking wait is an explicit oracle parameter.
-/

/-! ## Frame splitter: `class Messages` (goingnats.py lines 207-226)

`Messages.__call__` appends the received chunk to `self._buffer`;
`Messages.__iter__` splits the buffer on the separator (`CRLF = b"\r\n"`,
the default, which is what `Client._thread` uses), holds the fragment after
the last separator back as the new buffer, and yields the complete frames.
-/

/-- Python `buffer.split(b"\r\n")` on a byte list: split on every
non-overlapping occurrence of the two-byte separator `13, 10`, leftmost
first, keeping empty pieces (`b"".split(b"\r\n") == [b""]`). -/
def splitSep : List Nat → List (List Nat)
  | [] => [[]]
  | [a] => [[a]]
  | a :: b :: rest =>
    if a = 13 ∧ b = 10 then
      [] :: splitSep rest
    else
      (a :: (splitSep (b :: rest)).headD []) :: (splitSep (b :: rest)).tail

/-- Last element of a list of byte strings, empty if none: `messages[-1]`. -/
def lastD : List (List Nat) → List Nat
  | [] => []
  | [x] => x
  | _ :: y :: t => lastD (y :: t)

/-- One pass of `Messages.__iter__` over the buffer, returning the frames
yielded and the new buffer.  On an empty buffer `self._buffer[-1]` raises
`IndexError`, which the source catches by returning without yielding.  On a
non-empty buffer the guard `last != self.separator` compares an `int` (the
final byte) against the two-byte `bytes` separator, which in Python 3 is
always true; so the last piece of the split is always retained as the new
buffer (`self._buffer = messages[-1]`) and the other pieces are yielded
(`messages = messages[:-1]`), which is exactly the intended streaming
behaviour. -/
def msgsIter (buffer : List Nat) : List (List Nat) × List Nat :=
  match buffer with
  | [] => ([], [])
  | _ :: _ => ((splitSep buffer).dropLast, lastD (splitSep buffer))

/-- One `for message in messages(received)` round of `Client._thread`:
`Messages.__call__` concatenates the chunk onto the carry buffer, iteration
yields the complete frames.  State is `(frames emitted so far, buffer)`. -/
def feedChunk (st : List (List Nat) × List Nat) (chunk : List Nat) :
    List (List Nat) × List Nat :=
  (st.1 ++ (msgsIter (st.2 ++ chunk)).1, (msgsIter (st.2 ++ chunk)).2)

/-- Feed a sequence of byte chunks to a fresh `Messages()` instance, one at
a time; returns all frames emitted, in order, and the final carry buffer. -/
def runChunks (chunks : List (List Nat)) : List (List Nat) × List Nat :=
  chunks.foldl feedChunk ([], [])

/-- Rejoin split pieces with the separator (reference function for the
round-trip lemmas; computes what joining the pieces with `CRLF` would). -/
def joinSep : List (List Nat) → List Nat
  | [] => []
  | [x] => x
  | x :: y :: t => x ++ 13 :: 10 :: joinSep (y :: t)

/-! ## Connection loop: `Client._thread` (goingnats.py lines 152-204)

The loop feeds each received chunk to the splitter and classifies every
complete frame by the if/elif chain of lines 164-204.  The per-frame
processing is embedded as a step function `processFrame` over the loop's
protocol state; queue operations and socket writes become explicit
`Effect`s, and a raised Python exception becomes an `err` result (nothing is
enqueued on that path, since the raise aborts the loop body).
-/

/-- Bytes of `b"PING"`. -/
def bPING : List Nat := [80, 73, 78, 71]

/-- Bytes of `b"PONG"`. -/
def bPONG : List Nat := [80, 79, 78, 71]

/-- Bytes of `b"+OK"`. -/
def bOK : List Nat := [43, 79, 75]

/-- Bytes of `b"-ERR"`. -/
def bERR : List Nat := [45, 69, 82, 82]

/-- Bytes of `b"INFO"`. -/
def bINFO : List Nat := [73, 78, 70, 79]

/-- Bytes of `b"MSG"`. -/
def bMSG : List Nat := [77, 83, 71]

/-- Bytes of `b"INBOX."`. -/
def bINBOXdot : List Nat := [73, 78, 66, 79, 88, 46]

/-- Python `message.split(b" ")` on a byte list: split on every space byte
(32), keeping empty pieces. -/
def splitSpace : List Nat → List (List Nat)
  | [] => [[]]
  | a :: rest =>
    if a = 32 then
      [] :: splitSpace rest
    else
      (a :: (splitSpace rest).headD []) :: (splitSpace rest).tail

/-- Value of the loop-local Python variable `inbox`: either the literal
`False` (assigned on every MSG announcement, line 191) or the bytes of
`split[3]` (assigned when the announcement has 5 or more tokens,
lines 192-193). -/
inductive InboxVal
  | falseVal
  | bytesVal (b : List Nat)
  deriving DecidableEq

/-- Python truthiness of the `inbox` variable, as tested by `if inbox:`
(line 197): `False` is falsy, and a bytes object is truthy iff non-empty. -/
def InboxVal.truthy : InboxVal → Bool
  | .falseVal => false
  | .bytesVal b => !b.isEmpty

/-- The bytes carried by a truthy `inbox` value (`falseVal` is never
consulted on the truthy path). -/
def InboxVal.toBytes : InboxVal → List Nat
  | .falseVal => []
  | .bytesVal b => b

/-- Decoded deliveries: the namedtuples `Message(subject, payload)` and
`Request(subject, inbox, payload)` (goingnats.py lines 229-230). -/
inductive Delivery
  | message (subject payload : List Nat)
  | request (subject inbox payload : List Nat)
  deriving DecidableEq

/-- Observable actions of one loop iteration: a `PONG` write (line 165), a
`CONNECT` write (lines 179-185), a `warnings.warn` (line 171), a put into
the general message sink `self._messages` (lines 198, 204), or a put into
the single-slot response sink `self._response` (line 201). -/
inductive Effect
  | sendPong
  | sendConnect
  | warn (msg : List Nat)
  | putMessage (d : Delivery)
  | putResponse (payload : List Nat)
  deriving DecidableEq

/-- Python exceptions that the loop body can raise while classifying a
frame: `NameError` (payload frame with `subject`/`inbox` still unbound),
`IndexError` (`split[1]` on a MSG frame with fewer than two tokens). -/
inductive PyError
  | nameError
  | indexError
  deriving DecidableEq

/-- Protocol state owned by `Client._thread` across frames: the loop-local
variables `subject` and `inbox` (`none` = not yet bound, which is the state
before the first MSG announcement) and `self.information` (`none` = the
initial `{}`; the body of the INFO frame is kept as raw bytes, the
`json.loads` decoding is not modelled since no claim depends on it). -/
structure LoopState where
  subject? : Option (List Nat)
  inbox? : Option InboxVal
  information : Option (List Nat)
  deriving DecidableEq

/-- State at thread start: no announcement seen, `self.information = {}`. -/
def initState : LoopState := ⟨none, none, none⟩

/-- Result of processing one frame (or a whole frame list): the new state
plus the effects performed, or the Python exception that aborted the loop.
An exception carries no effects because the `raise` happens before any sink
is touched on that path. -/
inductive StepResult
  | ok (s : LoopState) (effs : List Effect)
  | err (e : PyError)
  deriving DecidableEq

/-- The final `else` branch of the classifier (goingnats.py lines 194-204):
the frame is a payload for the most recent MSG announcement.  Python first
evaluates `if inbox:` — a `NameError` if `inbox` was never bound — then
either builds `Request(subject, inbox, message)`, or tests
`subject.startswith(b"INBOX.")` and builds `Response(message)` or
`Message(subject, message)`; evaluating `subject` likewise raises
`NameError` if it was never bound. -/
def routePayload (s : LoopState) (f : List Nat) : StepResult :=
  match s.inbox?, s.subject? with
  | none, _ => .err .nameError
  | some _, none => .err .nameError
  | some v, some subj =>
    if v.truthy then
      .ok s [.putMessage (.request subj v.toBytes f)]
    else if bINBOXdot.isPrefixOf subj then
      .ok s [.putResponse f]
    else
      .ok s [.putMessage (.message subj f)]

/-- One round of the frame classifier of `Client._thread`
(goingnats.py lines 164-204), in source order: `message == b"PING"`,
`== b"PONG"`, `== b"+OK"`, `startswith(b"-ERR")`, `startswith(b"INFO")`,
`startswith(b"MSG")`, else payload.  The MSG branch does
`split = message.split(b" ")`, `subject = split[1]` (an `IndexError` when
the frame has fewer than two tokens), `inbox = False`, and
`if len(split) >= 5: inbox = split[3]`. -/
def processFrame (s : LoopState) (f : List Nat) : StepResult :=
  if f = bPING then .ok s [.sendPong]
  else if f = bPONG then .ok s []
  else if f = bOK then .ok s []
  else if bERR.isPrefixOf f then .ok s [.warn f]
  else if bINFO.isPrefixOf f then .ok { s with information := some (f.drop 4) } [.sendConnect]
  else if bMSG.isPrefixOf f then
    match (splitSpace f).get? 1 with
    | none => .err .indexError
    | some subj =>
      .ok { s with
              subject? := some subj,
              inbox? := some (if 5 ≤ (splitSpace f).length then
                                InboxVal.bytesVal ((splitSpace f).getD 3 [])
                              else
                                InboxVal.falseVal) } []
  else routePayload s f

/-- Process a list of complete frames in order, accumulating effects; the
first exception aborts the run, as it kills the reader thread. -/
def runFrames : LoopState → List (List Nat) → StepResult
  | s, [] => .ok s []
  | s, f :: rest =>
    match processFrame s f with
    | .err e => .err e
    | .ok s1 effs =>
      match runFrames s1 rest with
      | .err e => .err e
      | .ok s2 effs2 => .ok s2 (effs ++ effs2)

/-- Prepend a single `PONG` write to the effects of a run (helper for
stating that a leading PING contributes exactly one PONG and nothing else). -/
def StepResult.withPong : StepResult → StepResult
  | .ok s effs => .ok s (.sendPong :: effs)
  | .err e => .err e

/-- A frame matching one of the six recognized tests of the classifier
chain; everything else falls through to the payload branch. -/
def isRecognized (f : List Nat) : Prop :=
  f = bPING ∨ f = bPONG ∨ f = bOK ∨
    bERR.isPrefixOf f = true ∨ bINFO.isPrefixOf f = true ∨ bMSG.isPrefixOf f = true

instance (f : List Nat) : Decidable (isRecognized f) := by
  unfold isRecognized
  infer_instance

/-- Contents of the general message sink `self._messages` after a run: the
`put` calls in order (the queue is FIFO). -/
def messageSink (effs : List Effect) : List Delivery :=
  effs.filterMap fun e =>
    match e with
    | .putMessage d => some d
    | _ => none

/-! ## Client facade: `Client.get` (lines 48-68), `Client.request`
(lines 95-120), and the sid counter (lines 89, 98). -/

/-- Result of a `Client.get` call: the returned list of deliveries together
with what remains in the sink, or the raised `ValueError`. -/
inductive GetResult
  | ok (result : List Delivery) (remaining : List Delivery)
  | valueError
  deriving DecidableEq

/-- `Client.get(wait=...)` (goingnats.py lines 48-65).  `pending` is the
content of `self._messages` at the call, `late` is the content after the
bounded wait (the messages that arrived while waiting — an explicit oracle
standing in for real time).  The source first drains the queue
(`result = self._get()`); a non-empty result is returned at once
(`if result:`) — before `wait` is ever examined; an empty result returns
`[]` when `wait is None`, raises `ValueError` when `wait < 0`, and
otherwise waits at most `wait` ms on `not_empty` and drains again. -/
def getModel (pending : List Delivery) (wait : Option Int) (late : List Delivery) : GetResult :=
  if pending = [] then
    match wait with
    | none => .ok [] []
    | some w => if w < 0 then .valueError else .ok late []
  else
    .ok pending []

/-- Outcome of the blocking read in `Client.request`
(goingnats.py lines 117-120): the `Response` payload, or the `TimeoutError`
raised from `queue.Empty` — recorded with the subject and the wait bound it
interpolates into `f"no respponse received from {subject} in {wait} ms"` —
or an unbounded block when `self._response.get` was called with
`timeout=None` and nothing ever arrives. -/
inductive ReqOutcome
  | response (payload : List Nat)
  | timeout (subject : List Nat) (wait : Nat)
  | blocksForever
  deriving DecidableEq

/-- The single `self._response.get(timeout=wait / 1_000 if wait else None)`
of `Client.request` (line 118; there is no retry).  `wait` is the caller's
bound in milliseconds; `arrival` is the oracle for real time: the number of
milliseconds after which a `Response` lands in the single-slot sink (`none`
= never).  The conditional expression treats a `wait` of `0` as falsy, so
`timeout=None`: the call blocks with no bound.  With a timeout, `queue.get`
returns the item if it arrives strictly before the bound elapses and raises
`queue.Empty` otherwise, which line 120 converts to the `TimeoutError`. -/
def requestOutcome (subject : List Nat) (wait : Option Nat) (arrival : Option Nat)
    (payload : List Nat) : ReqOutcome :=
  match wait with
  | none =>
    match arrival with
    | none => .blocksForever
    | some _ => .response payload
  | some w =>
    if w = 0 then
      match arrival with
      | none => .blocksForever
      | some _ => .response payload
    else
      match arrival with
      | none => .timeout subject w
      | some a => if a < w then .response payload else .timeout subject w

/-- The facade calls that touch `self._sid`: `Client.subscribe`
(line 89) and `Client.request` (line 98). -/
inductive FacadeOp
  | subscribe (subject : List Nat)
  | request (subject payload : List Nat)

/-- Effect of one facade call on the sid counter: both `subscribe` and
`request` execute `self._sid += 1` and then send the incremented value.
Returns (new counter value, sid used by this call). -/
def opSid : Nat → FacadeOp → Nat × Nat
  | sid, .subscribe _ => (sid + 1, sid + 1)
  | sid, .request _ _ => (sid + 1, sid + 1)

/-- The sids issued by a sequence of facade calls starting from counter
value `sid`. -/
def sidsUsed : Nat → List FacadeOp → List Nat
  | _, [] => []
  | sid, op :: ops => (opSid sid op).2 :: sidsUsed (opSid sid op).1 ops

/-! ### Splitter lemmas -/

/-- Induction principle matching the two-byte lookahead of `splitSep`. -/
theorem list2_induction (P : List Nat → Prop) (h0 : P []) (h1 : ∀ a, P [a])
    (h2 : ∀ a b r, P r → P (b :: r) → P (a :: b :: r)) : ∀ l, P l := by
  have key : ∀ n (l : List Nat), l.length ≤ n → P l := by
    intro n
    induction n with
    | zero =>
      intro l hl
      cases l with
      | nil => exact h0
      | cons a t => simp at hl
    | succ n ih =>
      intro l hl
      cases l with
      | nil => exact h0
      | cons a t =>
        cases t with
        | nil => exact h1 a
        | cons b r =>
          simp only [List.length_cons] at hl
          exact h2 a b r (ih r (by omega)) (ih (b :: r) (by simp only [List.length_cons]; omega))
  exact fun l => key l.length l le_rfl

theorem splitSep_sep (r : List Nat) : splitSep (13 :: 10 :: r) = [] :: splitSep r := by
  simp [splitSep]

theorem splitSep_notsep (a b : Nat) (r : List Nat) (h : ¬(a = 13 ∧ b = 10)) :
    splitSep (a :: b :: r) =
      (a :: (splitSep (b :: r)).headD []) :: (splitSep (b :: r)).tail := by
  simp only [splitSep]
  rw [if_neg h]

theorem splitSep_ne_nil (l : List Nat) : splitSep l ≠ [] := by
  cases l with
  | nil => simp [splitSep]
  | cons a t =>
    cases t with
    | nil => simp [splitSep]
    | cons b r =>
      by_cases hab : a = 13 ∧ b = 10
      · obtain ⟨ha, hb⟩ := hab
        subst ha; subst hb
        rw [splitSep_sep]
        simp
      · rw [splitSep_notsep a b r hab]
        simp

theorem dropLast_cons_ne {α : Type} (a : α) (l : List α) (h : l ≠ []) :
    (a :: l).dropLast = a :: l.dropLast := by
  cases l with
  | nil => exact absurd rfl h
  | cons b t => rfl

theorem lastD_cons_ne (a : List Nat) (l : List (List Nat)) (h : l ≠ []) :
    lastD (a :: l) = lastD l := by
  cases l with
  | nil => exact absurd rfl h
  | cons b t => rfl

theorem dropLast_append_ne {α : Type} (A B : List α) (h : B ≠ []) :
    (A ++ B).dropLast = A ++ B.dropLast := by
  induction A with
  | nil => rfl
  | cons a A' ih =>
    have hne : A' ++ B ≠ [] := by
      intro hc
      rcases List.append_eq_nil.mp hc with ⟨-, hB⟩
      exact h hB
    calc ((a :: A') ++ B).dropLast
        = (a :: (A' ++ B)).dropLast := rfl
      _ = a :: (A' ++ B).dropLast := dropLast_cons_ne _ _ hne
      _ = a :: (A' ++ B.dropLast) := by rw [ih]
      _ = (a :: A') ++ B.dropLast := rfl

theorem lastD_append_ne (A B : List (List Nat)) (h : B ≠ []) :
    lastD (A ++ B) = lastD B := by
  induction A with
  | nil => rfl
  | cons a A' ih =>
    have hne : A' ++ B ≠ [] := by
      intro hc
      rcases List.append_eq_nil.mp hc with ⟨-, hB⟩
      exact h hB
    calc lastD ((a :: A') ++ B)
        = lastD (a :: (A' ++ B)) := rfl
      _ = lastD (A' ++ B) := lastD_cons_ne _ _ hne
      _ = lastD B := ih

theorem joinSep_cons (a : Nat) (h : List Nat) (t : List (List Nat)) :
    joinSep ((a :: h) :: t) = a :: joinSep (h :: t) := by
  cases t with
  | nil => rfl
  | cons y t' => simp [joinSep]

theorem msgsIter_eq (b : List Nat) :
    msgsIter b = ((splitSep b).dropLast, lastD (splitSep b)) := by
  cases b with
  | nil => rfl
  | cons a t => rfl

theorem joinSep_splitSep (l : List Nat) : joinSep (splitSep l) = l := by
  induction l using list2_induction with
  | h0 => rfl
  | h1 a => rfl
  | h2 a b r ihr ihbr =>
    by_cases hab : a = 13 ∧ b = 10
    · obtain ⟨ha, hb⟩ := hab
      subst ha; subst hb
      rw [splitSep_sep]
      cases hps : splitSep r with
      | nil => exact absurd hps (splitSep_ne_nil r)
      | cons c t =>
        rw [hps] at ihr
        simp only [joinSep, List.nil_append]
        rw [ihr]
    · rw [splitSep_notsep a b r hab]
      cases hps : splitSep (b :: r) with
      | nil => exact absurd hps (splitSep_ne_nil _)
      | cons h t =>
        rw [hps] at ihbr
        simp only [List.headD_cons, List.tail_cons]
        rw [joinSep_cons, ihbr]

theorem splitSep_carry (l : List Nat) :
    splitSep (lastD (splitSep l)) = [lastD (splitSep l)] := by
  induction l using list2_induction with
  | h0 => rfl
  | h1 a => rfl
  | h2 a b r ihr ihbr =>
    by_cases hab : a = 13 ∧ b = 10
    · obtain ⟨ha, hb⟩ := hab
      subst ha; subst hb
      rw [splitSep_sep, lastD_cons_ne _ _ (splitSep_ne_nil r)]
      exact ihr
    · rw [splitSep_notsep a b r hab]
      cases hps : splitSep (b :: r) with
      | nil => exact absurd hps (splitSep_ne_nil _)
      | cons h t =>
        cases t with
        | nil =>
          have hh : h = b :: r := by
            have hj := joinSep_splitSep (b :: r)
            rw [hps] at hj
            exact hj
          subst hh
          show splitSep (a :: b :: r) = [a :: b :: r]
          rw [splitSep_notsep a b r hab, hps]
          rfl
        | cons t0 t' =>
          rw [hps] at ihbr
          exact ihbr

theorem splitSep_append (x : List Nat) : ∀ y : List Nat,
    splitSep (x ++ y) = (splitSep x).dropLast ++ splitSep (lastD (splitSep x) ++ y) := by
  induction x using list2_induction with
  | h0 => intro y; rfl
  | h1 a => intro y; rfl
  | h2 a b r ihr ihbr =>
    intro y
    by_cases hab : a = 13 ∧ b = 10
    · obtain ⟨ha, hb⟩ := hab
      subst ha; subst hb
      show splitSep (13 :: 10 :: (r ++ y)) =
        (splitSep (13 :: 10 :: r)).dropLast ++ splitSep (lastD (splitSep (13 :: 10 :: r)) ++ y)
      rw [splitSep_sep (r ++ y), splitSep_sep r]
      rw [dropLast_cons_ne _ _ (splitSep_ne_nil r), lastD_cons_ne _ _ (splitSep_ne_nil r)]
      rw [ihr y]
      rfl
    · show splitSep (a :: b :: (r ++ y)) =
        (splitSep (a :: b :: r)).dropLast ++ splitSep (lastD (splitSep (a :: b :: r)) ++ y)
      rw [splitSep_notsep a b (r ++ y) hab, splitSep_notsep a b r hab]
      have hby : splitSep (b :: (r ++ y)) =
          (splitSep (b :: r)).dropLast ++ splitSep (lastD (splitSep (b :: r)) ++ y) := ihbr y
      rw [hby]
      cases hps : splitSep (b :: r) with
      | nil => exact absurd hps (splitSep_ne_nil _)
      | cons h t =>
        cases t with
        | nil =>
          have hh : h = b :: r := by
            have hj := joinSep_splitSep (b :: r)
            rw [hps] at hj
            exact hj
          subst hh
          show (a :: (splitSep ((b :: r) ++ y)).headD []) :: (splitSep ((b :: r) ++ y)).tail
            = splitSep ((a :: (b :: r)) ++ y)
          rw [show (a :: (b :: r)) ++ y = a :: b :: (r ++ y) from rfl]
          rw [splitSep_notsep a b (r ++ y) hab]
          rfl
        | cons t0 t' => rfl

theorem sepFree_append_sep : ∀ t : List Nat, splitSep t = [t] →
    splitSep (t ++ [13, 10]) = [t, []] := by
  intro t
  induction t using list2_induction with
  | h0 =>
    intro _
    rfl
  | h1 a =>
    intro _
    show splitSep (a :: 13 :: [10]) = [[a], []]
    rw [splitSep_notsep a 13 [10] (by simp)]
    rfl
  | h2 a b r ihr ihbr =>
    intro hsingle
    have hab : ¬(a = 13 ∧ b = 10) := by
      rintro ⟨ha, hb⟩
      subst ha; subst hb
      rw [splitSep_sep] at hsingle
      simp at hsingle
    rw [splitSep_notsep a b r hab] at hsingle
    cases hps : splitSep (b :: r) with
    | nil => exact absurd hps (splitSep_ne_nil _)
    | cons h0 t0 =>
      rw [hps] at hsingle
      simp only [List.headD_cons, List.tail_cons] at hsingle
      injection hsingle with hA hB
      injection hA with ha' hh
      subst hB
      subst hh
      have ih2 := ihbr hps
      show splitSep (a :: b :: (r ++ [13, 10])) = [a :: b :: r, []]
      rw [splitSep_notsep a b (r ++ [13, 10]) hab]
      have ih2' : splitSep (b :: (r ++ [13, 10])) = [b :: r, []] := ih2
      rw [ih2']
      rfl

theorem foldl_feedChunk (chunks : List (List Nat)) :
    ∀ (fs : List (List Nat)) (buf : List Nat), splitSep buf = [buf] →
      chunks.foldl feedChunk (fs, buf) =
        (fs ++ (splitSep (buf ++ chunks.flatten)).dropLast,
         lastD (splitSep (buf ++ chunks.flatten))) := by
  induction chunks with
  | nil =>
    intro fs buf hbuf
    simp only [List.foldl_nil, List.flatten_nil, List.append_nil, hbuf]
    show (fs, buf) = (fs ++ [], buf)
    rw [List.append_nil]
  | cons c cs ih =>
    intro fs buf hbuf
    rw [List.foldl_cons]
    have hfeed : feedChunk (fs, buf) c =
        (fs ++ (splitSep (buf ++ c)).dropLast, lastD (splitSep (buf ++ c))) := by
      simp only [feedChunk, msgsIter_eq]
    rw [hfeed, ih _ _ (splitSep_carry (buf ++ c))]
    have hjoin : buf ++ (c :: cs).flatten = (buf ++ c) ++ cs.flatten := by
      rw [List.flatten_cons, ← List.append_assoc]
    rw [hjoin, splitSep_append (buf ++ c) cs.flatten]
    rw [dropLast_append_ne _ _ (splitSep_ne_nil _), lastD_append_ne _ _ (splitSep_ne_nil _),
        List.append_assoc]

theorem runChunks_eq (chunks : List (List Nat)) :
    runChunks chunks = ((splitSep chunks.flatten).dropLast, lastD (splitSep chunks.flatten)) := by
  have h := foldl_feedChunk chunks [] [] rfl
  simpa [runChunks] using h

theorem emitted_join (ps : List (List Nat)) (h : ps ≠ []) :
    (ps.dropLast.map (fun f => f ++ [13, 10])).flatten ++ lastD ps = joinSep ps := by
  induction ps with
  | nil => exact absurd rfl h
  | cons x ps' ih =>
    cases ps' with
    | nil => simp [joinSep, lastD]
    | cons y t =>
      have ihyt := ih (by simp)
      show ((x :: (y :: t).dropLast).map (fun f => f ++ [13, 10])).flatten ++ lastD (y :: t)
        = joinSep (x :: y :: t)
      rw [List.map_cons, List.flatten_cons, List.append_assoc, ihyt]
      rw [List.append_assoc x [13, 10] (joinSep (y :: t))]
      rw [show joinSep (x :: y :: t) = x ++ 13 :: 10 :: joinSep (y :: t) from rfl]
      rfl

/-- Claim C3: for every sequence of byte chunks fed to the frame splitter
(`Messages`), joining all frames it has emitted so far with the separator
(each emitted frame followed by `b"\r\n"`) and appending the current carry
buffer reproduces the concatenation of all input chunks exactly. -/
theorem splitter_roundtrip (chunks : List (List Nat)) :
    ((runChunks chunks).1.map (fun f => f ++ [13, 10])).flatten ++ (runChunks chunks).2
      = chunks.flatten := by
  rw [runChunks_eq]
  exact (emitted_join (splitSep chunks.flatten) (splitSep_ne_nil _)).trans (joinSep_splitSep _)

/-- Claim C4: for every byte stream and every way of cutting it into chunks,
feeding the chunks to the frame splitter (`Messages`) one at a time yields
exactly the same complete frames, in the same order (and the same carry
buffer), as feeding the whole stream as a single chunk; and a stream ending
precisely at a separator leaves an empty carry buffer rather than emitting a
final empty frame. -/
theorem splitter_chunking_invariant (chunks : List (List Nat)) :
    runChunks chunks = runChunks [chunks.flatten] ∧
    (∀ m : List Nat, chunks.flatten = m ++ [13, 10] → (runChunks chunks).2 = []) := by
  constructor
  · rw [runChunks_eq chunks, runChunks_eq [chunks.flatten]]
    simp
  · intro m hm
    rw [runChunks_eq]
    show lastD (splitSep chunks.flatten) = []
    rw [hm, splitSep_append m [13, 10]]
    rw [sepFree_append_sep _ (splitSep_carry m)]
    rw [lastD_append_ne _ _ (by simp)]
    rfl

/-- Witness for C4 at a concrete input: the separator falling exactly on the
chunk edge between `[65, 13]` and `[10]`. -/
theorem splitter_chunking_invariant_witness :
    runChunks [[65, 13], [10]] = runChunks [[65, 13, 10]] ∧
    (runChunks [[65, 13], [10]]).2 = [] := by
  refine ⟨(splitter_chunking_invariant [[65, 13], [10]]).1, ?_⟩
  exact (splitter_chunking_invariant [[65, 13], [10]]).2 [65] (by decide)

/-! ### Connection-loop lemmas -/

theorem processFrame_not_recognized (s : LoopState) (f : List Nat) (hf : ¬ isRecognized f) :
    processFrame s f = routePayload s f := by
  simp only [isRecognized, not_or] at hf
  obtain ⟨n1, n2, n3, n4, n5, n6⟩ := hf
  simp only [processFrame, if_neg n1, if_neg n2, if_neg n3, if_neg n4, if_neg n5, if_neg n6]

theorem routePayload_eq (s : LoopState) (subj : List Nat) (v : InboxVal) (p : List Nat)
    (hs : s.subject? = some subj) (hv : s.inbox? = some v) :
    routePayload s p = .ok s
      [if v.truthy then Effect.putMessage (Delivery.request subj v.toBytes p)
       else if bINBOXdot.isPrefixOf subj then Effect.putResponse p
       else Effect.putMessage (Delivery.message subj p)] := by
  simp only [routePayload, hs, hv]
  by_cases ht : v.truthy = true
  · rw [if_pos ht, if_pos ht]
  · rw [if_neg ht, if_neg ht]
    by_cases hpre : bINBOXdot.isPrefixOf subj = true
    · rw [if_pos hpre, if_pos hpre]
    · rw [if_neg hpre, if_neg hpre]

theorem routePayload_ok_state (s : LoopState) (f : List Nat) (s' : LoopState) (effs : List Effect)
    (h : routePayload s f = .ok s' effs) : s' = s := by
  cases hv : s.inbox? with
  | none =>
    simp [routePayload, hv] at h
  | some v =>
    cases hsub : s.subject? with
    | none =>
      simp [routePayload, hv, hsub] at h
    | some subj =>
      simp only [routePayload, hv, hsub] at h
      by_cases ht : v.truthy = true
      · rw [if_pos ht] at h
        injection h with h1 h2
        exact h1.symm
      · rw [if_neg ht] at h
        by_cases hpre : bINBOXdot.isPrefixOf subj = true
        · rw [if_pos hpre] at h
          injection h with h1 h2
          exact h1.symm
        · rw [if_neg hpre] at h
          injection h with h1 h2
          exact h1.symm

/-- Claim C2: for every decoded delivery the reply-subject test (`if inbox:`)
is applied before the inbox-prefix test: a delivery carrying a (truthy)
reply-subject is enqueued into the general message sink as a Request even if
its subject starts with `INBOX.`; a delivery with no reply-subject whose
subject starts with `INBOX.` is enqueued into the single-slot response sink
as a Response, never into the general message sink; every other delivery is
enqueued into the general message sink as a plain Message. -/
theorem reply_subject_priority (s : LoopState) (subj : List Nat) (v : InboxVal) (p : List Nat)
    (hp : ¬ isRecognized p) (hs : s.subject? = some subj) (hv : s.inbox? = some v) :
    processFrame s p = .ok s
      [if v.truthy then Effect.putMessage (Delivery.request subj v.toBytes p)
       else if bINBOXdot.isPrefixOf subj then Effect.putResponse p
       else Effect.putMessage (Delivery.message subj p)] := by
  rw [processFrame_not_recognized s p hp]
  exact routePayload_eq s subj v p hs hv

/-- Witness for C2 at a concrete state: subject `INBOX.x` AND a truthy
reply-subject `r` — routed as a Request, showing reply-subject presence
wins over the inbox prefix. -/
theorem reply_subject_priority_witness :
    processFrame ⟨some [73, 78, 66, 79, 88, 46, 120], some (InboxVal.bytesVal [114]), none⟩
        [104, 105]
      = .ok ⟨some [73, 78, 66, 79, 88, 46, 120], some (InboxVal.bytesVal [114]), none⟩
          [Effect.putMessage
            (Delivery.request [73, 78, 66, 79, 88, 46, 120] [114] [104, 105])] := by
  have h := reply_subject_priority
      ⟨some [73, 78, 66, 79, 88, 46, 120], some (InboxVal.bytesVal [114]), none⟩
      [73, 78, 66, 79, 88, 46, 120] (InboxVal.bytesVal [114]) [104, 105]
      (by decide) rfl rfl
  simpa [InboxVal.truthy, InboxVal.toBytes] using h

/-- Claim C8: for every PING frame received, the connection loop writes
exactly one PONG reply and nothing else, and the protocol state (in
particular the pending message-announcement variables) is untouched, so a
payload frame after the PING is routed exactly as it would have been
without the PING. -/
theorem ping_exactly_one_pong (s : LoopState) (rest : List (List Nat)) :
    processFrame s bPING = .ok s [Effect.sendPong] ∧
    runFrames s (bPING :: rest) = (runFrames s rest).withPong := by
  have h1 : processFrame s bPING = .ok s [Effect.sendPong] := by
    simp [processFrame]
  refine ⟨h1, ?_⟩
  simp only [runFrames, h1]
  cases hr : runFrames s rest with
  | ok s2 effs2 => simp [StepResult.withPong]
  | err e => simp [StepResult.withPong]

/-- Claim C10: the payload-routing branch is well-defined only after a MSG
announcement: at thread start `subject` and `inbox` are unbound; a frame
with none of the recognized prefixes raises `NameError` (routing nothing to
any sink) while `inbox` is still unbound; and no frame other than a MSG
announcement ever binds `subject` or `inbox`. -/
theorem payload_before_announcement_fails :
    (initState.subject? = none ∧ initState.inbox? = none) ∧
    (∀ (s : LoopState) (f : List Nat), ¬ isRecognized f → s.inbox? = none →
      processFrame s f = .err PyError.nameError) ∧
    (∀ (s : LoopState) (f : List Nat) (s' : LoopState) (effs : List Effect),
      bMSG.isPrefixOf f = false → processFrame s f = .ok s' effs →
      s'.inbox? = s.inbox? ∧ s'.subject? = s.subject?) := by
  refine ⟨⟨rfl, rfl⟩, ?_, ?_⟩
  · intro s f hf hinb
    rw [processFrame_not_recognized s f hf]
    simp [routePayload, hinb]
  · intro s f s' effs hm hok
    simp only [processFrame] at hok
    by_cases c1 : f = bPING
    · rw [if_pos c1] at hok
      injection hok with h1 h2
      subst h1
      exact ⟨rfl, rfl⟩
    · rw [if_neg c1] at hok
      by_cases c2 : f = bPONG
      · rw [if_pos c2] at hok
        injection hok with h1 h2
        subst h1
        exact ⟨rfl, rfl⟩
      · rw [if_neg c2] at hok
        by_cases c3 : f = bOK
        · rw [if_pos c3] at hok
          injection hok with h1 h2
          subst h1
          exact ⟨rfl, rfl⟩
        · rw [if_neg c3] at hok
          by_cases c4 : bERR.isPrefixOf f = true
          · rw [if_pos c4] at hok
            injection hok with h1 h2
            subst h1
            exact ⟨rfl, rfl⟩
          · rw [if_neg c4] at hok
            by_cases c5 : bINFO.isPrefixOf f = true
            · rw [if_pos c5] at hok
              injection hok with h1 h2
              subst h1
              exact ⟨rfl, rfl⟩
            · rw [if_neg c5] at hok
              rw [if_neg (by simp [hm] : ¬ bMSG.isPrefixOf f = true)] at hok
              have hst := routePayload_ok_state s f s' effs hok
              subst hst
              exact ⟨rfl, rfl⟩

/-- Witness for C10: the unrecognized frame `b"hello"` arriving at thread
start raises `NameError`. -/
theorem payload_before_announcement_fails_witness :
    processFrame initState [104, 101, 108, 108, 111] = .err PyError.nameError :=
  payload_before_announcement_fails.2.1 initState [104, 101, 108, 108, 111] (by decide) rfl

/-- Counterexample to Claim C1 as stated.  First input: the announcement
`b"MSG a 1  0"` (note the double space) has 5 space-separated tokens with an
empty 4th token, yet the following payload frame is routed as a plain
Message, not as a Request — refuting "5 or more tokens means the delivery is
routed as a Request whose reply-subject is the 4th token".  Second input:
the 4-token announcement `b"MSG INBOX.q 1 0"` routes the payload as a
Response, not as a plain Message — refuting "exactly 4 tokens means the
delivery is routed as a plain Message". -/
theorem msg_token_count_cex :
    (splitSpace [77, 83, 71, 32, 97, 32, 49, 32, 32, 48]).length = 5 ∧
    runFrames initState [[77, 83, 71, 32, 97, 32, 49, 32, 32, 48], [104, 105]]
      = .ok ⟨some [97], some (InboxVal.bytesVal []), none⟩
          [Effect.putMessage (Delivery.message [97] [104, 105])] ∧
    runFrames initState [[77, 83, 71, 32, 73, 78, 66, 79, 88, 46, 113, 32, 49, 32, 48], [104, 105]]
      = .ok ⟨some [73, 78, 66, 79, 88, 46, 113], some InboxVal.falseVal, none⟩
          [Effect.putResponse [104, 105]] := by
  decide

/-- Claim C1 (amended): for every received MSG announcement frame, the
number of space-separated tokens decides how the following payload frame is
routed.  Exactly 4 tokens means no reply-subject is recorded: the payload is
never routed as a Request — it becomes a plain Message, or a Response when
its subject starts with `INBOX.`.  5 or more tokens means the 4th token
(index 3) is recorded as the reply-subject: when that token is non-empty the
payload is routed as a Request carrying it verbatim; when it is empty
(Python falsy) the payload is routed as though no reply-subject were
present. -/
theorem msg_token_count_routing (s : LoopState) (fr p subj tok : List Nat)
    (ts : List (List Nat))
    (hts : splitSpace (bMSG ++ fr) = ts)
    (h1 : ts.get? 1 = some subj)
    (htok : ts.getD 3 [] = tok)
    (hp : ¬ isRecognized p) :
    (ts.length = 4 →
      runFrames s [bMSG ++ fr, p] =
        .ok { s with subject? := some subj, inbox? := some InboxVal.falseVal }
          [if bINBOXdot.isPrefixOf subj then Effect.putResponse p
           else Effect.putMessage (Delivery.message subj p)]) ∧
    (5 ≤ ts.length →
      runFrames s [bMSG ++ fr, p] =
        .ok { s with subject? := some subj, inbox? := some (InboxVal.bytesVal tok) }
          [if tok = [] then
            (if bINBOXdot.isPrefixOf subj then Effect.putResponse p
             else Effect.putMessage (Delivery.message subj p))
           else Effect.putMessage (Delivery.request subj tok p)]) := by
  have hne1 : ¬ (bMSG ++ fr = bPING) := by simp [bMSG, bPING]
  have hne2 : ¬ (bMSG ++ fr = bPONG) := by simp [bMSG, bPONG]
  have hne3 : ¬ (bMSG ++ fr = bOK) := by simp [bMSG, bOK]
  have hpre4 : ¬ (bERR.isPrefixOf (bMSG ++ fr) = true) := by
    simp [bERR, bMSG, List.isPrefixOf]
  have hpre5 : ¬ (bINFO.isPrefixOf (bMSG ++ fr) = true) := by
    simp [bINFO, bMSG, List.isPrefixOf]
  have hpre6 : bMSG.isPrefixOf (bMSG ++ fr) = true := by
    simp [bMSG, List.isPrefixOf]
  have hmsg : processFrame s (bMSG ++ fr) = .ok { s with
      subject? := some subj,
      inbox? := some (if 5 ≤ ts.length then InboxVal.bytesVal tok
                      else InboxVal.falseVal) } [] := by
    simp only [processFrame, if_neg hne1, if_neg hne2, if_neg hne3, if_neg hpre4, if_neg hpre5,
      if_pos hpre6, hts, h1, htok]
  constructor
  · intro h4
    have hinb : (if 5 ≤ ts.length then InboxVal.bytesVal tok
        else InboxVal.falseVal) = InboxVal.falseVal := by
      rw [if_neg (by rw [h4]; decide)]
    rw [hinb] at hmsg
    have hpf2 := processFrame_not_recognized
      { s with subject? := some subj, inbox? := some InboxVal.falseVal } p hp
    have hroute := routePayload_eq
      { s with subject? := some subj, inbox? := some InboxVal.falseVal }
      subj InboxVal.falseVal p rfl rfl
    rw [if_neg (by decide : ¬ InboxVal.truthy InboxVal.falseVal = true)] at hroute
    simp only [runFrames, hmsg, hpf2, hroute]
    simp
  · intro h5
    have hinb : (if 5 ≤ ts.length then InboxVal.bytesVal tok
        else InboxVal.falseVal) = InboxVal.bytesVal tok := if_pos h5
    rw [hinb] at hmsg
    have hpf2 := processFrame_not_recognized
      { s with subject? := some subj, inbox? := some (InboxVal.bytesVal tok) } p hp
    have hroute := routePayload_eq
      { s with subject? := some subj, inbox? := some (InboxVal.bytesVal tok) }
      subj (InboxVal.bytesVal tok) p rfl rfl
    by_cases hemp : tok = []
    · rw [if_pos hemp]
      rw [if_neg (by simp [InboxVal.truthy, hemp]
        : ¬ InboxVal.truthy (InboxVal.bytesVal tok) = true)] at hroute
      simp only [runFrames, hmsg, hpf2, hroute]
      simp
    · rw [if_neg hemp]
      rw [if_pos (by simp [InboxVal.truthy, List.isEmpty_iff, hemp]
        : InboxVal.truthy (InboxVal.bytesVal tok) = true)] at hroute
      simp only [runFrames, hmsg, hpf2, hroute]
      simp [InboxVal.toBytes]

/-- Witness for C1 (amended) at the concrete announcement `b"MSG a 1 r 0"`
followed by the payload `b"hi"`: routed as a Request carrying `b"r"`. -/
theorem msg_token_count_routing_witness :
    runFrames initState [bMSG ++ [32, 97, 32, 49, 32, 114, 32, 48], [104, 105]]
      = .ok ⟨some [97], some (InboxVal.bytesVal [114]), none⟩
          [Effect.putMessage (Delivery.request [97] [114] [104, 105])] := by
  have h := (msg_token_count_routing initState [32, 97, 32, 49, 32, 114, 32, 48] [104, 105]
      [97] [114] [[77, 83, 71], [97], [49], [114], [48]]
      (by decide) (by decide) (by decide) (by decide)).2 (by decide)
  simpa using h

/-! ### Facade lemmas -/

/-- Claim C7: every call to get with pending messages in the general message
sink returns exactly the pending deliveries, in the order the loop enqueued
them (the sink is FIFO and `runFrames` records the puts in decode order),
and leaves the sink empty; a call to `get(wait=0)` on an empty sink returns
immediately with an empty list. -/
theorem get_drains_in_order :
    (∀ (pending : List Delivery) (w : Option Int) (late : List Delivery),
      pending ≠ [] → getModel pending w late = .ok pending []) ∧
    getModel [] (some 0) [] = .ok [] [] ∧
    (∀ (s : LoopState) (frames : List (List Nat)) (s' : LoopState) (effs : List Effect)
      (late : List Delivery),
      runFrames s frames = .ok s' effs →
      getModel (messageSink effs) none late = .ok (messageSink effs) []) := by
  refine ⟨?_, by decide, ?_⟩
  · intro pending w late h
    simp [getModel, h]
  · intro s frames s' effs late hrun
    cases hms : messageSink effs with
    | nil => simp [getModel]
    | cons d t => simp [getModel]

/-- Witness for C7: a single pending Message is returned as-is and the sink
is left empty. -/
theorem get_drains_in_order_witness :
    getModel [Delivery.message [120] [104, 105]] none []
      = .ok [Delivery.message [120] [104, 105]] [] :=
  get_drains_in_order.1 [Delivery.message [120] [104, 105]] none [] (by decide)

/-- Counterexample to Claim C6 as stated: `get(wait=-1)` with a pending
message returns the message instead of raising `ValueError` — the bad wait
value is silently ignored when the sink is non-empty, because
`result = self._get()` runs and returns before `wait` is ever examined. -/
theorem get_negative_wait_cex :
    getModel [Delivery.message [120] [104, 105]] (some (-1)) []
      = .ok [Delivery.message [120] [104, 105]] [] ∧
    getModel [Delivery.message [120] [104, 105]] (some (-1)) [] ≠ .valueError := by
  decide

/-- Claim C6 (amended): `get(wait=w)` with `w` negative raises `ValueError`
when the general message sink is empty at the call; when messages are
pending they are returned at once and the negative wait value is never
examined. -/
theorem get_negative_wait_rejection (w : Int) (late : List Delivery) (hw : w < 0) :
    getModel [] (some w) late = .valueError ∧
    (∀ pending : List Delivery, pending ≠ [] →
      getModel pending (some w) late = .ok pending []) := by
  constructor
  · simp [getModel, hw]
  · intro pending h
    simp [getModel, h]

/-- Witness for C6 (amended) at `wait = -1`. -/
theorem get_negative_wait_rejection_witness :
    getModel [] (some (-1)) [] = .valueError ∧
    getModel [Delivery.message [120] [104, 105]] (some (-1)) []
      = .ok [Delivery.message [120] [104, 105]] [] :=
  ⟨(get_negative_wait_rejection (-1) [] (by decide)).1,
   (get_negative_wait_rejection (-1) [] (by decide)).2
      [Delivery.message [120] [104, 105]] (by decide)⟩

/-- Counterexample to Claim C5 as stated: a request for `b"today"` with the
wait bound 0 and no Response ever arriving blocks forever — it does not fail
with the timeout error — because `wait / 1_000 if wait else None` treats the
bound 0 as falsy and passes `timeout=None` to the queue read. -/
theorem request_zero_wait_cex :
    requestOutcome [116, 111, 100, 97, 121] (some 0) none [] = ReqOutcome.blocksForever ∧
    requestOutcome [116, 111, 100, 97, 121] (some 0) none []
      ≠ ReqOutcome.timeout [116, 111, 100, 97, 121] 0 := by
  decide

/-- Claim C5 (amended): for every request call given a positive wait bound,
if no Response arrives in the response sink before the bound elapses,
request fails with a TimeoutError naming the requested subject and the
elapsed bound, and it does not retry (the outcome is a single take from the
sink); a wait bound of 0 is falsy in `wait / 1_000 if wait else None` and is
treated as no bound at all — the call blocks indefinitely. -/
theorem request_timeout_naming (subject : List Nat) (w : Nat) (payload : List Nat)
    (hw : 0 < w) :
    requestOutcome subject (some w) none payload = ReqOutcome.timeout subject w ∧
    (∀ a : Nat, w ≤ a →
      requestOutcome subject (some w) (some a) payload = ReqOutcome.timeout subject w) ∧
    requestOutcome subject (some 0) none payload = ReqOutcome.blocksForever := by
  refine ⟨?_, ?_, rfl⟩
  · simp [requestOutcome, hw.ne']
  · intro a ha
    simp [requestOutcome, hw.ne', Nat.not_lt.mpr ha]

/-- Witness for C5 (amended) at subject `b"today"`, bound 100 ms: no arrival
at all, and an arrival at 150 ms, both time out naming the subject and the
bound. -/
theorem request_timeout_naming_witness :
    requestOutcome [116, 111, 100, 97, 121] (some 100) none []
      = ReqOutcome.timeout [116, 111, 100, 97, 121] 100 ∧
    requestOutcome [116, 111, 100, 97, 121] (some 100) (some 150) []
      = ReqOutcome.timeout [116, 111, 100, 97, 121] 100 :=
  ⟨(request_timeout_naming [116, 111, 100, 97, 121] 100 [] (by decide)).1,
   (request_timeout_naming [116, 111, 100, 97, 121] 100 [] (by decide)).2.1 150 (by decide)⟩

theorem sidsUsed_mono (ops : List FacadeOp) : ∀ sid : Nat,
    (sidsUsed sid ops).Pairwise (· < ·) ∧ ∀ x ∈ sidsUsed sid ops, sid < x := by
  induction ops with
  | nil =>
    intro sid
    exact ⟨List.Pairwise.nil, by simp [sidsUsed]⟩
  | cons op ops ih =>
    intro sid
    have hop : opSid sid op = (sid + 1, sid + 1) := by cases op <;> rfl
    have hss : sidsUsed sid (op :: ops) = (sid + 1) :: sidsUsed (sid + 1) ops := by
      simp [sidsUsed, hop]
    rw [hss]
    obtain ⟨hpw, hgt⟩ := ih (sid + 1)
    refine ⟨List.pairwise_cons.mpr ⟨fun y hy => hgt y hy, hpw⟩, ?_⟩
    intro x hx
    rcases List.mem_cons.mp hx with h | h
    · omega
    · have := hgt x h
      omega

/-- Claim C9: within one connection the subscription identifier is a
monotonically increasing integer: both subscribe and request run
`self._sid += 1` before use, the sids issued by any sequence of facade calls
are strictly increasing and all above the starting counter value, so no sid
is ever issued twice for the lifetime of the connection. -/
theorem sid_strictly_increasing (sid : Nat) (ops : List FacadeOp) :
    (∀ op, opSid sid op = (sid + 1, sid + 1)) ∧
    (sidsUsed sid ops).Pairwise (· < ·) ∧
    (sidsUsed sid ops).Nodup ∧
    (∀ x ∈ sidsUsed sid ops, sid < x) := by
  obtain ⟨hpw, hgt⟩ := sidsUsed_mono ops sid
  refine ⟨fun op => by cases op <;> rfl, hpw, ?_, hgt⟩
  exact hpw.imp Nat.ne_of_lt

/-- Witness for C9 on the call sequence subscribe, request from a fresh
connection: the first call uses sid 1 and the second issued sid (2) is
strictly above the starting counter. -/
theorem sid_strictly_increasing_witness :
    opSid 0 (FacadeOp.subscribe [97]) = (1, 1) ∧ (0 : Nat) < 2 :=
  ⟨(sid_strictly_increasing 0 [FacadeOp.subscribe [97], FacadeOp.request [98] []]).1
      (FacadeOp.subscribe [97]),
   (sid_strictly_increasing 0 [FacadeOp.subscribe [97], FacadeOp.request [98] []]).2.2.2 2
      (by decide)⟩
